import Mathlib

/-! # Sherbrooke collection calendar (`calendrier_collectes/print_calendar.go`)

A shallow embedding of the record-aggregation loop and of the calendar
formatter of `print_calendar.go`, with the properties of the aggregation
(one `Period` per contiguous run of equal week number in the records of the
district "Arrondissement du Mont-Bellevue") and of the formatter (month
headers, summary lines, information lines, legend).

Conventions of the embedding:

* Go `string` is `String`; `+` on strings is `++`.
* `time.Time` values of this program are either the zero value or the result
  of `time.Parse("2006-01-02", s)`, that is a calendar date at midnight UTC;
  they are modelled by `Time` (year, month, day).
* `log.Fatal` and a run-time panic end the program; they are the two
  constructors of `Failure`, and fallible code returns `Except Failure _`.
* every `fmt.Println(s)` of the formatter is recorded as one `CalendarLine`
  holding the string `s` that was printed.
-/

namespace Sherbrooke

/-! ## Data model (source lines 53-76) -/

/-- Calendar date carried by a `time.Time` of this program (midnight UTC). -/
structure Time where
  year : Nat
  month : Nat
  day : Nat
deriving DecidableEq, Repr

/-- The zero value of `time.Time`: January 1, year 1, 00:00:00 UTC. -/
def Time.zero : Time := { year := 1, month := 1, day := 1 }

/-- Go `type Period struct` (source lines 53-59). -/
structure Period where
  Number : String
  Types : String
  Date_begin : Time
  Date_end : Time
  Information : String
deriving DecidableEq, Repr

/-- The zero value of `Period`, the value of `var period Period`. -/
def Period.zero : Period :=
  { Number := "", Types := "", Date_begin := Time.zero, Date_end := Time.zero,
    Information := "" }

/-- Go `type CollecteMatieresResiduelle struct` (source lines 66-76); the field
`Type` is spelled `Type_`, `Type` being reserved. -/
structure CollecteMatieresResiduelle where
  Municipality_id : String
  Code_id : String
  Week_number : String
  Date_begin : String
  Date_end : String
  District : String
  Type_ : String
  Description : String
  Information : String
deriving DecidableEq, Repr

/-- How the program can end abnormally: a run-time panic of an index
expression, or `log.Fatal(err)`. -/
inductive Failure where
  | indexOutOfRange
  | fatal (msg : String)
deriving DecidableEq, Repr

deriving instance DecidableEq for Except

/-! ## `time.Parse("2006-01-02", s)` and `Time.Format` -/

/-- Go `time.isLeap`. -/
def isLeap (year : Nat) : Bool :=
  year % 4 == 0 && (year % 100 != 0 || year % 400 == 0)

/-- Go `time.daysIn`, for a month in `1..12`. -/
def daysIn (m : Nat) (year : Nat) : Nat :=
  if m == 2 && isLeap year then 29
  else match m with
    | 1 => 31 | 2 => 28 | 3 => 31 | 4 => 30 | 5 => 31 | 6 => 30
    | 7 => 31 | 8 => 31 | 9 => 30 | 10 => 31 | 11 => 30 | 12 => 31
    | _ => 0

/-- Value of an ASCII digit. -/
def digitVal (c : Char) : Nat := c.toNat - 48

/-- Library function `time.Parse` at the layout `"2006-01-02"`: a four-digit
year, `-`, a two-digit month in `1..12`, `-`, a two-digit day that exists in
that month of that year, and nothing else. -/
def time_Parse (value : String) : Except String Time :=
  match value.data with
  | [y1, y2, y3, y4, s1, m1, m2, s2, d1, d2] =>
    if y1.isDigit && y2.isDigit && y3.isDigit && y4.isDigit && s1 == '-'
        && m1.isDigit && m2.isDigit && s2 == '-' && d1.isDigit && d2.isDigit then
      let year := digitVal y1 * 1000 + digitVal y2 * 100 + digitVal y3 * 10 + digitVal y4
      let month := digitVal m1 * 10 + digitVal m2
      let day := digitVal d1 * 10 + digitVal d2
      if month < 1 || 12 < month then
        .error ("parsing time " ++ value ++ ": month out of range")
      else if day < 1 || daysIn month year < day then
        .error ("parsing time " ++ value ++ ": day out of range")
      else .ok { year := year, month := month, day := day }
    else .error ("parsing time " ++ value ++ " as 2006-01-02: cannot parse")
  | _ => .error ("parsing time " ++ value ++ " as 2006-01-02: cannot parse")

/-- Go `Month.String`: the long English month name. -/
def longMonthName (m : Nat) : String :=
  match m with
  | 1 => "January" | 2 => "February" | 3 => "March" | 4 => "April"
  | 5 => "May" | 6 => "June" | 7 => "July" | 8 => "August"
  | 9 => "September" | 10 => "October" | 11 => "November" | 12 => "December"
  | _ => "%!Month(" ++ toString m ++ ")"

/-- Go `time.appendInt` for a non-negative value: decimal digits, left-padded
with zeros to `width`. -/
def appendInt (x : Nat) (width : Nat) : String :=
  let digits := Nat.toDigits 10 x
  String.mk (List.replicate (width - digits.length) '0' ++ digits)

/-- Go `t.Format("January 2006")`. -/
def Time.Format_January_2006 (t : Time) : String :=
  longMonthName t.month ++ " " ++ appendInt t.year 4

/-- Go `t.Format("01-02")`. -/
def Time.Format_01_02 (t : Time) : String :=
  appendInt t.month 2 ++ "-" ++ appendInt t.day 2

/-! ## Objects -> calendar (source lines 118-149) -/

/-- The hard-coded district of source line 124. -/
def targetDistrict : String := "Arrondissement du Mont-Bellevue"

/-- Local variables of `main` that the aggregation loop reads and writes:
`previous_cmr`, `period` and `montbellevue.Periods`. -/
structure LoopState where
  previous_cmr : CollecteMatieresResiduelle
  period : Period
  Periods : List Period
deriving DecidableEq, Repr

/-- One iteration of the loop of source lines 123-147. -/
def loopBody (st : LoopState) (cmr : CollecteMatieresResiduelle) :
    Except Failure LoopState :=
  if cmr.District = targetDistrict then
    -- lines 125-131: flush the current period and start a new one
    let st1 : LoopState :=
      if cmr.Week_number ≠ st.previous_cmr.Week_number then
        { st with
          Periods := st.Periods ++ [st.period]
          period := { st.period with Types := "", Information := "" } }
      else st
    -- lines 133-141
    match time_Parse cmr.Date_begin with
    | .error err => .error (.fatal err)
    | .ok date_begin =>
      match time_Parse cmr.Date_end with
      | .error err => .error (.fatal err)
      | .ok date_end =>
        -- lines 142-145
        .ok
          { previous_cmr := cmr
            period :=
              { Number := cmr.Week_number
                Types := st1.period.Types ++ cmr.Type_
                Date_begin := date_begin
                Date_end := date_end
                Information := st1.period.Information ++ cmr.Information }
            Periods := st1.Periods }
  else .ok st

/-- The loop of source lines 123-147 over the remaining records. -/
def loop (st : LoopState) : List CollecteMatieresResiduelle → Except Failure LoopState
  | [] => .ok st
  | cmr :: rest =>
    match loopBody st cmr with
    | .error e => .error e
    | .ok st1 => loop st1 rest

/-- Source lines 119-149 of `main`: from the unmarshalled record list
`m.CalendrierCollectes.CollecteMatieresResiduelles` to `montbellevue.Periods`.
Line 119 indexes the list at `0`, which panics on an empty list. -/
def aggregate (records : List CollecteMatieresResiduelle) : Except Failure (List Period) :=
  match records with
  | [] => .error .indexOutOfRange
  | first :: _ =>
    match loop { previous_cmr := first, period := Period.zero, Periods := [] } records with
    | .error e => .error e
    | .ok st => .ok (st.Periods ++ [st.period])

/-! ## Format the parsed data (source lines 151-179) -/

/-- One `fmt.Println` of the formatter, with the string that was printed. -/
inductive CalendarLine where
  | header (text : String)
  | summary (text : String)
  | information (text : String)
  | legend (text : String)
deriving DecidableEq, Repr

/-- The string handed to `fmt.Println`. -/
def CalendarLine.text : CalendarLine → String
  | .header s => s
  | .summary s => s
  | .information s => s
  | .legend s => s

/-- Local variable `previous_time` and the lines printed so far. -/
structure FormatState where
  previous_time : String
  out : List CalendarLine
deriving DecidableEq, Repr

/-- The argument of `fmt.Println` at source lines 162-165. -/
def summaryText (p : Period) : String :=
  p.Number ++ "\t" ++ p.Types ++ "\t" ++ p.Date_begin.Format_01_02 ++ "\t"
    ++ p.Date_end.Format_01_02

/-- One iteration of the loop of source lines 154-170. -/
def formatBody (st : FormatState) (p : Period) : FormatState :=
  let current_time := p.Date_begin.Format_January_2006
  let st1 : FormatState :=
    if current_time ≠ st.previous_time then
      { previous_time := current_time
        out := st.out ++ [CalendarLine.header ("\n\n" ++ current_time)] }
    else st
  let st2 : FormatState := { st1 with out := st1.out ++ [CalendarLine.summary (summaryText p)] }
  if p.Information ≠ "" then
    { st2 with out := st2.out ++ [CalendarLine.information (" `-> " ++ p.Information)] }
  else st2

/-- The legend printed at source lines 172-179. -/
def legendText : String :=
  "\nLegende\n" ++ "D - Déchets\n" ++ "R - Récupération\n" ++ "C - Compost\n"
    ++ "S - Sapin\n" ++ "E - Encombrant et bois\n" ++ "B - Carton\n" ++ "F - Feuilles mortes"

/-- Source lines 151-179: the lines printed for `montbellevue.Periods`. -/
def format (periods : List Period) : List CalendarLine :=
  (periods.foldl formatBody { previous_time := "", out := [] }).out
    ++ [CalendarLine.legend legendText]

/-- What reaches standard output: every printed string followed by a newline. -/
def stdout (lines : List CalendarLine) : String :=
  String.join (lines.map fun l => l.text ++ "\n")

/-! ## The entry point (source lines 85-117) -/

/-- Library function `path.Base`: the last element of a slash-separated path,
trailing slashes removed; `"."` for the empty path and `"/"` for a path made of
slashes only. -/
def path_Base (path : String) : String :=
  if path = "" then "."
  else
    let stripped := (path.data.reverse.dropWhile fun c => c == '/').reverse
    let last := (stripped.reverse.takeWhile fun c => c != '/').reverse
    if last = [] then "/" else String.mk last

/-- The text printed by `usage()` (source lines 85-87), `program` being
`os.Args[0]`. -/
def usage (program : String) : String :=
  "Usage: " ++ path_Base program ++ " [OPTION] FILE.json\n\n"

/-- What `main` does to the outside world, in order: the `fmt.Printf` of
`usage`, the call of `ioutil.ReadFile`, and each `fmt.Println` of the
formatter. -/
inductive Event where
  | printf (text : String)
  | readFile (path : String)
  | println (line : CalendarLine)
deriving DecidableEq, Repr

/-- A run of `main`: the events in order, and how it ended (`.ok ()` for a
normal return, `log.Fatal` or a panic otherwise). -/
structure Run where
  events : List Event
  status : Except Failure Unit
deriving DecidableEq, Repr

/-- Go `main` (source lines 94-180). `os.Args` starts with the program name
(package `os`), so it is `program :: arguments`. The file system
(`ioutil.ReadFile`) and the JSON decoder (`json.Unmarshal` followed by the
selection of `m.CalendrierCollectes.CollecteMatieresResiduelles`) are the two
external collaborators `ReadFile` and `Unmarshal`. `init_log` (line 99) only
sets the prefix and the stream of package `log`; it leaves no event. -/
def main (program : String) (arguments : List String)
    (ReadFile : String → Except String String)
    (Unmarshal : String → Except String (List CollecteMatieresResiduelle)) : Run :=
  let os_Args := program :: arguments
  -- lines 101-104
  if os_Args.length ≠ 2 then
    { events := [Event.printf (usage program)]
      status := .error (.fatal "not enough arguments") }
  else
    match os_Args[1]? with
    | none => { events := [], status := .error .indexOutOfRange }
    | some file =>
      -- lines 107-110
      match ReadFile file with
      | .error err => { events := [Event.readFile file], status := .error (.fatal err) }
      | .ok json_buffer =>
        -- lines 113-116
        match Unmarshal json_buffer with
        | .error err => { events := [Event.readFile file], status := .error (.fatal err) }
        | .ok records =>
          -- lines 119-149
          match aggregate records with
          | .error e => { events := [Event.readFile file], status := .error e }
          | .ok periods =>
            -- lines 152-179
            { events := Event.readFile file :: (format periods).map Event.println
              status := .ok () }

/-! ## Specification-side vocabulary -/

/-- RecordFilter of the specification: the records of a district, by exact
string match, in their original order. -/
def filterDistrict (records : List CollecteMatieresResiduelle) (district : String) :
    List CollecteMatieresResiduelle :=
  records.filter fun r => r.District == district

/-- Two records carry the same week number. -/
def sameWeek (a b : CollecteMatieresResiduelle) : Bool :=
  a.Week_number == b.Week_number

/-- The maximal contiguous runs of equal week number of a record sequence. -/
def weekRuns (records : List CollecteMatieresResiduelle) :
    List (List CollecteMatieresResiduelle) :=
  List.splitBy sameWeek records

/-- Both dates of a record are accepted by `time.Parse("2006-01-02", _)`. -/
def datesParse (r : CollecteMatieresResiduelle) : Bool :=
  (time_Parse r.Date_begin).toBool && (time_Parse r.Date_end).toBool

/-- The date a string parses to (the zero date when it does not parse). -/
def parsedDate (s : String) : Time :=
  match time_Parse s with
  | .ok t => t
  | .error _ => Time.zero

/-- The `Period` that stands for a run of records: the week number and the
parsed dates of its last record, and the concatenation of the types and of
the information notes of all its records. -/
def periodOfRun (run : List CollecteMatieresResiduelle) : Period :=
  match run.getLast? with
  | none => Period.zero
  | some last =>
    { Number := last.Week_number
      Types := String.join (run.map fun r => r.Type_)
      Date_begin := parsedDate last.Date_begin
      Date_end := parsedDate last.Date_end
      Information := String.join (run.map fun r => r.Information) }

/-- The Periods that the loop flushes before the Period of the first run: one
all-empty Period when there is no target record, or when the first record of
the list does not carry the week number of the first target record. -/
def leadingPeriods (first : CollecteMatieresResiduelle)
    (filtered : List CollecteMatieresResiduelle) : List Period :=
  match filtered with
  | [] => [Period.zero]
  | a :: _ => if a.Week_number ≠ first.Week_number then [Period.zero] else []

/-- The state after one iteration on a target record whose dates parse. -/
def targetStep (st : LoopState) (cmr : CollecteMatieresResiduelle) : LoopState :=
  { previous_cmr := cmr
    period :=
      { Number := cmr.Week_number
        Types := (if cmr.Week_number ≠ st.previous_cmr.Week_number then ""
          else st.period.Types) ++ cmr.Type_
        Date_begin := parsedDate cmr.Date_begin
        Date_end := parsedDate cmr.Date_end
        Information := (if cmr.Week_number ≠ st.previous_cmr.Week_number then ""
          else st.period.Information) ++ cmr.Information }
    Periods := if cmr.Week_number ≠ st.previous_cmr.Week_number
      then st.Periods ++ [st.period] else st.Periods }

/-! ## Specification-side vocabulary of the formatter -/

/-- The month label of a Period: long month name and year of its begin date. -/
def monthLabel (p : Period) : String := p.Date_begin.Format_January_2006

/-- Whether the `i`-th Period is the first one, or has a month label that
differs from the month label of the Period before it. -/
def headerExpected (periods : List Period) (i : Nat) : Bool :=
  i == 0 || (periods[i]?.map monthLabel != periods[i - 1]?.map monthLabel)

/-- The lines expected for the `i`-th Period: a month header when
`headerExpected`, the summary line, and the information line when the
Information is not empty. -/
def blockOfPeriod (periods : List Period) (i : Nat) : List CalendarLine :=
  match periods[i]? with
  | none => []
  | some p =>
    (if headerExpected periods i then [CalendarLine.header ("\n\n" ++ monthLabel p)] else [])
      ++ [CalendarLine.summary (summaryText p)]
      ++ (if p.Information ≠ "" then [CalendarLine.information (" `-> " ++ p.Information)]
          else [])

/-- The line is a month header. -/
def CalendarLine.isHeader : CalendarLine → Bool
  | .header _ => true
  | _ => false

/-- The line is a Period summary. -/
def CalendarLine.isSummary : CalendarLine → Bool
  | .summary _ => true
  | _ => false

/-- The line is an information line. -/
def CalendarLine.isInformation : CalendarLine → Bool
  | .information _ => true
  | _ => false

/-- The line is the legend. -/
def CalendarLine.isLegend : CalendarLine → Bool
  | .legend _ => true
  | _ => false

/-- The lines of one Period after its optional month header: the summary line,
immediately followed by the information line when the Information is not
empty. -/
def summaryAndInformation (p : Period) : List CalendarLine :=
  [CalendarLine.summary (summaryText p)]
    ++ (if p.Information ≠ "" then [CalendarLine.information (" `-> " ++ p.Information)]
        else [])

/-- The event is the `fmt.Printf` of the usage message. -/
def Event.isPrintf : Event → Bool
  | .printf _ => true
  | _ => false

/-! ## Sample records -/

/-- A record with the given district, week number, type, dates and note. -/
def record (district week type_ date_begin date_end information : String) :
    CollecteMatieresResiduelle :=
  { Municipality_id := "43027", Code_id := "", Week_number := week, Date_begin := date_begin,
    Date_end := date_end, District := district, Type_ := type_, Description := "",
    Information := information }

/-- A record of another district, week "01". -/
def otherWeek01 : CollecteMatieresResiduelle :=
  record "Arrondissement de Brompton" "01" "D" "2014-01-06" "2014-01-06" ""

/-- A record of the target district, week "02". -/
def targetWeek02 : CollecteMatieresResiduelle :=
  record targetDistrict "02" "C" "2014-01-13" "2014-01-13" "Holiday"

/-- A target record of week "01" whose dates differ from those of
`targetWeek01R`. -/
def targetWeek01D : CollecteMatieresResiduelle :=
  record targetDistrict "01" "D" "2014-01-06" "2014-01-07" ""

/-- A second target record of week "01". -/
def targetWeek01R : CollecteMatieresResiduelle :=
  record targetDistrict "01" "R" "2014-01-08" "2014-01-09" "Bac bleu"

/-- A target record whose end date is not a calendar date. -/
def targetBadDate : CollecteMatieresResiduelle :=
  record targetDistrict "03" "D" "2014-02-28" "2014-02-30" ""

/-- A record of another district whose dates do not parse. -/
def otherBadDate : CollecteMatieresResiduelle :=
  record "Arrondissement de Brompton" "01" "D" "06/01/2014" "" ""

/-- The three target records of the end-to-end scenario. -/
def scenarioRecords : List CollecteMatieresResiduelle :=
  [record targetDistrict "01" "D" "2014-01-06" "2014-01-06" "",
   record targetDistrict "01" "R" "2014-01-06" "2014-01-06" "",
   record targetDistrict "02" "C" "2014-01-13" "2014-01-13" "Holiday"]

/-- A file system that holds one file, `calendrier.json`. -/
def sampleReadFile (path : String) : Except String String :=
  if path = "calendrier.json" then .ok "scenario"
  else .error ("open " ++ path ++ ": no such file or directory")

/-- A decoder that yields the scenario records. -/
def sampleUnmarshal (_json_buffer : String) :
    Except String (List CollecteMatieresResiduelle) :=
  .ok scenarioRecords

/-! ## The aggregation loop and the runs of the filtered sequence -/

theorem join_snoc (l : List String) (x : String) :
    String.join (l ++ [x]) = String.join l ++ x := by
  simp [String.join, List.foldl_append]

theorem periodOfRun_snoc (run : List CollecteMatieresResiduelle)
    (c : CollecteMatieresResiduelle) :
    periodOfRun (run ++ [c]) =
      { Number := c.Week_number
        Types := (periodOfRun run).Types ++ c.Type_
        Date_begin := parsedDate c.Date_begin
        Date_end := parsedDate c.Date_end
        Information := (periodOfRun run).Information ++ c.Information } := by
  have hT : (periodOfRun run).Types = String.join (run.map fun r => r.Type_) := by
    unfold periodOfRun
    cases h : run.getLast? with
    | none => simp [List.getLast?_eq_none_iff.mp h, Period.zero, String.join]
    | some last => rfl
  have hI : (periodOfRun run).Information = String.join (run.map fun r => r.Information) := by
    unfold periodOfRun
    cases h : run.getLast? with
    | none => simp [List.getLast?_eq_none_iff.mp h, Period.zero, String.join]
    | some last => rfl
  rw [hT, hI]
  simp [periodOfRun, List.getLast?_append, join_snoc]

theorem loopBody_other (st : LoopState) (cmr : CollecteMatieresResiduelle)
    (h : cmr.District ≠ targetDistrict) : loopBody st cmr = .ok st := by
  simp [loopBody, h]

theorem loop_filterDistrict (st : LoopState) (records : List CollecteMatieresResiduelle) :
    loop st records = loop st (filterDistrict records targetDistrict) := by
  induction records generalizing st with
  | nil => rfl
  | cons c rest ih =>
    by_cases h : c.District = targetDistrict
    · have hf : filterDistrict (c :: rest) targetDistrict
          = c :: filterDistrict rest targetDistrict := by
        simp [filterDistrict, h]
      rw [hf]
      simp only [loop]
      cases loopBody st c with
      | error e => rfl
      | ok st1 => exact ih st1
    · have hf : filterDistrict (c :: rest) targetDistrict
          = filterDistrict rest targetDistrict := by
        simp [filterDistrict, h]
      rw [hf]
      simp only [loop, loopBody_other st c h]
      exact ih st

theorem parsedDate_of_ok {s : String} {t : Time} (h : time_Parse s = .ok t) :
    parsedDate s = t := by
  simp [parsedDate, h]

theorem datesParse_iff (r : CollecteMatieresResiduelle) :
    datesParse r = true ↔
      (∃ b, time_Parse r.Date_begin = .ok b) ∧ (∃ e, time_Parse r.Date_end = .ok e) := by
  unfold datesParse
  cases time_Parse r.Date_begin <;> cases time_Parse r.Date_end <;> simp [Except.toBool]

theorem loopBody_target (st : LoopState) (cmr : CollecteMatieresResiduelle)
    (hd : cmr.District = targetDistrict) (hp : datesParse cmr = true) :
    loopBody st cmr = .ok (targetStep st cmr) := by
  obtain ⟨⟨b, hb⟩, ⟨e, he⟩⟩ := (datesParse_iff cmr).mp hp
  unfold loopBody targetStep
  rw [if_pos hd]
  simp only [hb, he, parsedDate_of_ok hb, parsedDate_of_ok he]
  by_cases hw : cmr.Week_number = st.previous_cmr.Week_number <;> simp [hw]

theorem periodOfRun_singleton (c : CollecteMatieresResiduelle) :
    periodOfRun [c] =
      { Number := c.Week_number
        Types := "" ++ c.Type_
        Date_begin := parsedDate c.Date_begin
        Date_end := parsedDate c.Date_end
        Information := "" ++ c.Information } := by
  simpa [periodOfRun, Period.zero] using periodOfRun_snoc [] c

/-- The loop invariant: with `ag` the last record read, `g` the earlier records
of the open run (latest first) and `gs` the closed runs (latest first), the
loop over target records ends with the Periods of `List.splitBy.loop`. -/
theorem loop_splitBy_loop (l : List CollecteMatieresResiduelle) :
    ∀ (ag : CollecteMatieresResiduelle) (g : List CollecteMatieresResiduelle)
      (gs : List (List CollecteMatieresResiduelle)) (lead : List Period) (st : LoopState),
      (∀ r ∈ l, r.District = targetDistrict ∧ datesParse r = true) →
      st.previous_cmr = ag →
      st.period = periodOfRun ((ag :: g).reverse) →
      st.Periods = lead ++ gs.reverse.map periodOfRun →
      ∃ st1, loop st l = .ok st1 ∧
        st1.Periods ++ [st1.period]
          = lead ++ (List.splitBy.loop sameWeek l ag g gs).map periodOfRun := by
  induction l with
  | nil =>
    intro ag g gs lead st _ _ hper hPs
    refine ⟨st, rfl, ?_⟩
    simp [List.splitBy.loop, hper, hPs]
  | cons c l ih =>
    intro ag g gs lead st hall hprev hper hPs
    have hc := hall c (List.mem_cons_self _ _)
    have hl : ∀ r ∈ l, r.District = targetDistrict ∧ datesParse r = true :=
      fun r hr => hall r (List.mem_cons_of_mem _ hr)
    simp only [loop, loopBody_target st c hc.1 hc.2]
    by_cases hw : c.Week_number = ag.Week_number
    · have hR : sameWeek ag c = true := by simp [sameWeek, hw]
      have := ih c (ag :: g) gs lead (targetStep st c) hl rfl (by
        simp only [targetStep, hprev, hw, ne_eq, not_true_eq_false, if_false, hper]
        rw [List.reverse_cons c, periodOfRun_snoc, hw]) (by
        simp only [targetStep, hprev, hw, ne_eq, not_true_eq_false, if_false, hPs])
      simpa [List.splitBy.loop, hR] using this
    · have hR : sameWeek ag c = false := by
        simp only [sameWeek, beq_eq_false_iff_ne, ne_eq]
        exact fun h => hw h.symm
      have := ih c [] ((ag :: g).reverse :: gs) lead (targetStep st c) hl rfl (by
        simp only [targetStep, hprev, hw, ne_eq, not_false_eq_true, if_true]
        exact (periodOfRun_singleton c).symm) (by
        simp only [targetStep, hprev, hw, ne_eq, not_false_eq_true, if_true, hPs, hper]
        simp)
      simpa [List.splitBy.loop, hR] using this

/-- The aggregation of a non-empty record list whose target records parse:
the leading Periods, then one Period per run of the filtered sequence. -/
theorem aggregate_eq (first : CollecteMatieresResiduelle)
    (rest : List CollecteMatieresResiduelle)
    (hparse : ∀ r ∈ first :: rest, r.District = targetDistrict → datesParse r = true) :
    aggregate (first :: rest) = .ok
      (leadingPeriods first (filterDistrict (first :: rest) targetDistrict)
        ++ (weekRuns (filterDistrict (first :: rest) targetDistrict)).map periodOfRun) := by
  have hmem : ∀ r ∈ filterDistrict (first :: rest) targetDistrict,
      r.District = targetDistrict ∧ datesParse r = true := by
    intro r hr
    have := List.mem_filter.mp hr
    have hd : r.District = targetDistrict := by simpa using this.2
    exact ⟨hd, hparse r this.1 hd⟩
  unfold aggregate
  simp only
  rw [loop_filterDistrict]
  cases hf : filterDistrict (first :: rest) targetDistrict with
  | nil => simp [loop, leadingPeriods, weekRuns]
  | cons a f =>
    rw [hf] at hmem
    have ha := hmem a (List.mem_cons_self _ _)
    have hl : ∀ r ∈ f, r.District = targetDistrict ∧ datesParse r = true :=
      fun r hr => hmem r (List.mem_cons_of_mem _ hr)
    simp only [loop, loopBody_target _ a ha.1 ha.2]
    obtain ⟨st1, h1, h2⟩ := loop_splitBy_loop f a [] []
      (if a.Week_number ≠ first.Week_number then [Period.zero] else [])
      (targetStep { previous_cmr := first, period := Period.zero, Periods := [] } a) hl rfl
      (by
        rw [List.reverse_singleton, periodOfRun_singleton]
        by_cases hw : a.Week_number = first.Week_number <;>
          simp [targetStep, Period.zero, hw])
      (by by_cases hw : a.Week_number = first.Week_number <;> simp [targetStep, hw])
    rw [h1]
    simp only [h2, leadingPeriods, weekRuns, List.splitBy]

/-! ## Facts about the runs -/

theorem weekRuns_flatten (records : List CollecteMatieresResiduelle) :
    (weekRuns records).flatten = records :=
  List.flatten_splitBy sameWeek records

theorem week_eq_of_chain (a : CollecteMatieresResiduelle)
    (t : List CollecteMatieresResiduelle)
    (h : List.Chain (fun x y => sameWeek x y = true) a t) :
    ∀ r ∈ t, r.Week_number = a.Week_number := by
  induction t generalizing a with
  | nil => intro r hr; cases hr
  | cons b t ih =>
    rw [List.chain_cons] at h
    have hab : a.Week_number = b.Week_number := by simpa [sameWeek] using h.1
    intro r hr
    rcases List.mem_cons.mp hr with rfl | hr
    · exact hab.symm
    · rw [ih b h.2 r hr, hab]

/-- A run is not empty and all its records carry the week number of its last
record. -/
theorem weekRuns_run {records run : List CollecteMatieresResiduelle}
    (h : run ∈ weekRuns records) :
    ∃ last, run.getLast? = some last ∧ ∀ r ∈ run, r.Week_number = last.Week_number := by
  have hne : run ≠ [] := List.ne_nil_of_mem_splitBy sameWeek h
  have hch : run.Chain' fun x y => sameWeek x y = true := List.chain'_of_mem_splitBy h
  cases run with
  | nil => exact absurd rfl hne
  | cons a t =>
    have hall := week_eq_of_chain a t hch
    refine ⟨(a :: t).getLast hne, List.getLast?_eq_getLast _ hne, ?_⟩
    have hlast : ((a :: t).getLast hne).Week_number = a.Week_number := by
      rcases List.mem_cons.mp (List.getLast_mem hne) with h | h
      · rw [h]
      · exact hall _ h
    intro r hr
    rcases List.mem_cons.mp hr with rfl | hr
    · exact hlast.symm
    · rw [hall r hr, hlast]

theorem leadingPeriods_length (first : CollecteMatieresResiduelle)
    (filtered : List CollecteMatieresResiduelle) :
    (leadingPeriods first filtered).length ≤ 1 := by
  unfold leadingPeriods
  split
  · simp
  · split <;> simp

/-- A target record whose dates parse: the parsed dates are those of
`parsedDate`. -/
theorem time_Parse_of_datesParse {r : CollecteMatieresResiduelle}
    (h : datesParse r = true) :
    time_Parse r.Date_begin = .ok (parsedDate r.Date_begin) ∧
      time_Parse r.Date_end = .ok (parsedDate r.Date_end) := by
  obtain ⟨⟨b, hb⟩, ⟨e, he⟩⟩ := (datesParse_iff r).mp h
  rw [parsedDate_of_ok hb, parsedDate_of_ok he]
  exact ⟨hb, he⟩

/-! ## The loop on a list split in two, on one run, on a bad date -/

theorem loop_append (st : LoopState) (l m : List CollecteMatieresResiduelle) :
    loop st (l ++ m) =
      match loop st l with
      | .error e => .error e
      | .ok st1 => loop st1 m := by
  induction l generalizing st with
  | nil => rfl
  | cons c l ih =>
    simp only [List.cons_append, loop]
    cases loopBody st c with
    | error e => rfl
    | ok st1 => exact ih st1

/-- The loop over a non-empty block of target records of week `w`: the open
Period is flushed at the start of the block if and only if the previous week
number is not `w`, and the Period that is open at the end is labelled `w`. -/
theorem loop_run (w : String) (l : List CollecteMatieresResiduelle) :
    ∀ (st : LoopState), l ≠ [] →
      (∀ r ∈ l, r.District = targetDistrict ∧ r.Week_number = w ∧ datesParse r = true) →
      ∃ st1, loop st l = .ok st1 ∧ st1.previous_cmr.Week_number = w ∧ st1.period.Number = w ∧
        st1.Periods = if w ≠ st.previous_cmr.Week_number
          then st.Periods ++ [st.period] else st.Periods := by
  induction l with
  | nil => intro st h; exact absurd rfl h
  | cons c l ih =>
    intro st _ hall
    obtain ⟨hd, hw, hp⟩ := hall c (List.mem_cons_self _ _)
    simp only [loop, loopBody_target st c hd hp]
    by_cases hl : l = []
    · subst hl
      exact ⟨targetStep st c, rfl, by simp [targetStep, hw], by simp [targetStep, hw],
        by simp [targetStep, hw]⟩
    · obtain ⟨st1, h1, h2, h3, h4⟩ := ih (targetStep st c) hl
        (fun r hr => hall r (List.mem_cons_of_mem _ hr))
      refine ⟨st1, h1, h2, h3, ?_⟩
      rw [h4]
      simp [targetStep, hw]

theorem loopBody_bad_date (st : LoopState) (cmr : CollecteMatieresResiduelle)
    (hd : cmr.District = targetDistrict) (hp : datesParse cmr = false) :
    ∃ msg, loopBody st cmr = .error (.fatal msg) := by
  unfold loopBody
  rw [if_pos hd]
  unfold datesParse at hp
  cases hb : time_Parse cmr.Date_begin with
  | error err => exact ⟨err, rfl⟩
  | ok b =>
    cases he : time_Parse cmr.Date_end with
    | error err => exact ⟨err, rfl⟩
    | ok e => simp [hb, he, Except.toBool] at hp

/-- The loop reaches its end when the dates of all target records parse. -/
theorem loop_ok (l : List CollecteMatieresResiduelle) :
    ∀ (st : LoopState), (∀ r ∈ l, r.District = targetDistrict → datesParse r = true) →
      ∃ st1, loop st l = .ok st1 := by
  induction l with
  | nil => intro st _; exact ⟨st, rfl⟩
  | cons c l ih =>
    intro st hall
    have hl : ∀ r ∈ l, r.District = targetDistrict → datesParse r = true :=
      fun r hr => hall r (List.mem_cons_of_mem _ hr)
    by_cases hd : c.District = targetDistrict
    · simp only [loop, loopBody_target st c hd (hall c (List.mem_cons_self _ _) hd)]
      exact ih _ hl
    · simp only [loop, loopBody_other st c hd]
      exact ih _ hl

/-- The loop ends in `log.Fatal` when some target record has a date that does
not parse. -/
theorem loop_fatal (l : List CollecteMatieresResiduelle) :
    ∀ (st : LoopState), (∃ r ∈ l, r.District = targetDistrict ∧ datesParse r = false) →
      ∃ msg, loop st l = .error (.fatal msg) := by
  induction l with
  | nil => rintro st ⟨r, hr, _⟩; cases hr
  | cons c l ih =>
    rintro st ⟨r, hr, hd, hp⟩
    by_cases hcd : c.District = targetDistrict
    · cases hcp : datesParse c with
      | false =>
        obtain ⟨msg, hmsg⟩ := loopBody_bad_date st c hcd hcp
        exact ⟨msg, by simp only [loop, hmsg]⟩
      | true =>
        simp only [loop, loopBody_target st c hcd hcp]
        rcases List.mem_cons.mp hr with rfl | hr
        · rw [hcp] at hp; cases hp
        · exact ih _ ⟨r, hr, hd, hp⟩
    · simp only [loop, loopBody_other st c hcd]
      rcases List.mem_cons.mp hr with rfl | hr
      · exact absurd hd hcd
      · exact ih _ ⟨r, hr, hd, hp⟩

theorem aggregate_of_loop {first : CollecteMatieresResiduelle}
    {rest : List CollecteMatieresResiduelle} {st : LoopState}
    (h : loop { previous_cmr := first, period := Period.zero, Periods := [] } (first :: rest)
      = .ok st) :
    aggregate (first :: rest) = .ok (st.Periods ++ [st.period]) := by
  simp only [aggregate, h]

theorem aggregate_fatal (records : List CollecteMatieresResiduelle)
    (h : ∃ r ∈ records, r.District = targetDistrict ∧ datesParse r = false) :
    ∃ msg, aggregate records = .error (.fatal msg) := by
  cases records with
  | nil => obtain ⟨r, hr, _⟩ := h; cases hr
  | cons first rest =>
    obtain ⟨msg, hmsg⟩ := loop_fatal (first :: rest)
      { previous_cmr := first, period := Period.zero, Periods := [] } h
    exact ⟨msg, by simp only [aggregate, hmsg]⟩

theorem datesParse_eq_false_iff (r : CollecteMatieresResiduelle) :
    datesParse r = false ↔
      ((time_Parse r.Date_begin).toBool = false ∨ (time_Parse r.Date_end).toBool = false) := by
  unfold datesParse
  cases (time_Parse r.Date_begin).toBool <;> cases (time_Parse r.Date_end).toBool <;> simp

theorem datesParse_eq_true_iff (r : CollecteMatieresResiduelle) :
    datesParse r = true ↔
      ((time_Parse r.Date_begin).toBool = true ∧ (time_Parse r.Date_end).toBool = true) := by
  simp [datesParse]

/-! ## The formatter loop -/

theorem monthLabel_ne_empty (p : Period) : monthLabel p ≠ "" := by
  intro h
  have := congrArg String.length h
  simp only [monthLabel, Time.Format_January_2006, String.length_append] at this
  have h1 : (" " : String).length = 1 := rfl
  have h0 : ("" : String).length = 0 := rfl
  omega

theorem blockOfPeriod_append_left (ps : List Period) (p : Period) (i : Nat)
    (hi : i < ps.length) : blockOfPeriod (ps ++ [p]) i = blockOfPeriod ps i := by
  have h1 : (ps ++ [p])[i]? = ps[i]? := List.getElem?_append_left hi
  have h2 : (ps ++ [p])[i - 1]? = ps[i - 1]? := List.getElem?_append_left (by omega)
  simp only [blockOfPeriod, headerExpected, h1, h2]

theorem formatBody_eq (st : FormatState) (p : Period) :
    formatBody st p =
      { previous_time := monthLabel p
        out := st.out
          ++ ((if monthLabel p ≠ st.previous_time
                then [CalendarLine.header ("\n\n" ++ monthLabel p)] else [])
              ++ [CalendarLine.summary (summaryText p)]
              ++ (if p.Information ≠ ""
                then [CalendarLine.information (" `-> " ++ p.Information)] else [])) } := by
  unfold formatBody monthLabel
  by_cases h1 : p.Date_begin.Format_January_2006 = st.previous_time <;>
    by_cases h2 : p.Information = "" <;> simp [h1, h2]

/-- The state of the formatter loop after all Periods: `previous_time` is the
month label of the last Period, and the lines are the blocks of the Periods. -/
theorem foldl_formatBody (periods : List Period) :
    (periods.foldl formatBody { previous_time := "", out := [] }).previous_time
        = (periods.getLast?.map monthLabel).getD "" ∧
      (periods.foldl formatBody { previous_time := "", out := [] }).out
        = ((List.range periods.length).map (blockOfPeriod periods)).flatten := by
  induction periods using List.reverseRecOn with
  | nil => simp
  | append_singleton ps p ih =>
    obtain ⟨ihprev, ihout⟩ := ih
    have hmap : (List.range ps.length).map (blockOfPeriod (ps ++ [p]))
        = (List.range ps.length).map (blockOfPeriod ps) := by
      apply List.map_congr_left
      intro i hi
      exact blockOfPeriod_append_left ps p i (List.mem_range.mp hi)
    have hlast : (ps ++ [p])[ps.length]? = some p := by simp
    rw [List.foldl_append, List.foldl_cons, List.foldl_nil, formatBody_eq]
    refine ⟨by simp, ?_⟩
    simp only [List.length_append, List.length_singleton, List.range_succ, List.map_append,
      List.map_cons, List.map_nil, List.flatten_append, hmap, ← ihout, List.flatten_cons,
      List.flatten_nil, List.append_nil]
    congr 1
    simp only [blockOfPeriod, hlast]
    congr 2
    rw [ihprev]
    cases hps : ps.getLast? with
    | none =>
      have : ps = [] := List.getLast?_eq_none_iff.mp hps
      subst this
      simp [headerExpected, monthLabel_ne_empty]
    | some q =>
      have hne : ps ≠ [] := by
        intro h; subst h; simp at hps
      have hpos : 0 < ps.length := List.length_pos.mpr hne
      have hq : (ps ++ [p])[ps.length - 1]? = some q := by
        rw [List.getElem?_append_left (by omega), ← List.getLast?_eq_getElem?, hps]
      have h0 : (ps.length == 0) = false := by simp [hne]
      simp only [headerExpected, hlast, hq, h0, Option.map_some', Option.getD_some,
        Bool.false_or]
      by_cases hl : monthLabel p = monthLabel q <;> simp [hl]

/-- The header lines printed by the loop and the runs of equal month label:
with `a` the label held by `previous_time`, each header is one closed run. -/
theorem headers_splitBy_loop (l : List Period) :
    ∀ (a : String) (g : List String) (gs : List (List String)) (st : FormatState),
      st.previous_time = a →
      ((l.foldl formatBody st).out.filter CalendarLine.isHeader).length + gs.length + 1
        = (st.out.filter CalendarLine.isHeader).length
          + (List.splitBy.loop (fun x y => x == y) (l.map monthLabel) a g gs).length := by
  induction l with
  | nil =>
    intro a g gs st _
    simp [List.splitBy.loop]
    omega
  | cons p l ih =>
    intro a g gs st hprev
    rw [List.foldl_cons, formatBody_eq, List.map_cons, List.splitBy.loop]
    by_cases hl : monthLabel p = a
    · have hR : (a == monthLabel p) = true := by simp [hl]
      have := ih (monthLabel p) (a :: g) gs
        { previous_time := monthLabel p
          out := st.out
            ++ ((if monthLabel p ≠ st.previous_time
                  then [CalendarLine.header ("\n\n" ++ monthLabel p)] else [])
                ++ [CalendarLine.summary (summaryText p)]
                ++ (if p.Information ≠ ""
                  then [CalendarLine.information (" `-> " ++ p.Information)] else [])) } rfl
      rw [this]
      simp only [hR, hprev, hl, ne_eq, not_true_eq_false, if_false]
      by_cases hi : p.Information = "" <;> simp [hi, CalendarLine.isHeader]
    · have hR : (a == monthLabel p) = false := by
        simp only [beq_eq_false_iff_ne, ne_eq]
        exact fun h => hl h.symm
      have := ih (monthLabel p) [] ((a :: g).reverse :: gs)
        { previous_time := monthLabel p
          out := st.out
            ++ ((if monthLabel p ≠ st.previous_time
                  then [CalendarLine.header ("\n\n" ++ monthLabel p)] else [])
                ++ [CalendarLine.summary (summaryText p)]
                ++ (if p.Information ≠ ""
                  then [CalendarLine.information (" `-> " ++ p.Information)] else [])) } rfl
      simp only [hR]
      simp only [List.length_cons] at this
      have hcount : ((st.out
            ++ ((if monthLabel p ≠ st.previous_time
                  then [CalendarLine.header ("\n\n" ++ monthLabel p)] else [])
                ++ [CalendarLine.summary (summaryText p)]
                ++ (if p.Information ≠ ""
                  then [CalendarLine.information (" `-> " ++ p.Information)] else []))).filter
            CalendarLine.isHeader).length
          = (st.out.filter CalendarLine.isHeader).length + 1 := by
        by_cases hi : p.Information = "" <;> simp [hi, hprev, hl, CalendarLine.isHeader]
      omega

theorem format_header_count (periods : List Period) :
    ((format periods).filter CalendarLine.isHeader).length
      = (List.splitBy (fun x y => x == y) (periods.map monthLabel)).length := by
  cases periods with
  | nil => simp [format, CalendarLine.isHeader]
  | cons p l =>
    have h := headers_splitBy_loop l (monthLabel p) [] []
      (formatBody { previous_time := "", out := [] } p) (by rw [formatBody_eq])
    have hfirst : ((formatBody { previous_time := "", out := [] } p).out.filter
        CalendarLine.isHeader).length = 1 := by
      rw [formatBody_eq]
      by_cases hi : p.Information = "" <;>
        simp [hi, monthLabel_ne_empty, CalendarLine.isHeader]
    simp only [format, List.foldl_cons, List.filter_append, List.length_append, List.map_cons,
      List.splitBy]
    simp only [List.length_nil] at h
    have hleg : ([CalendarLine.legend legendText].filter CalendarLine.isHeader).length = 0 := by
      simp [CalendarLine.isHeader]
    omega

theorem foldl_formatBody_summary (l : List Period) :
    ∀ (st : FormatState),
      (l.foldl formatBody st).out.filter CalendarLine.isSummary
        = st.out.filter CalendarLine.isSummary
          ++ l.map fun p => CalendarLine.summary (summaryText p) := by
  induction l with
  | nil => intro st; simp
  | cons p l ih =>
    intro st
    rw [List.foldl_cons, ih, formatBody_eq]
    by_cases h1 : monthLabel p = st.previous_time <;>
      by_cases h2 : p.Information = "" <;> simp [h1, h2, CalendarLine.isSummary]

theorem appendInt_two_digits (n : Nat) (h : n < 100) :
    appendInt n 2 = String.mk [Nat.digitChar (n / 10), Nat.digitChar (n % 10)] := by
  interval_cases n <;> rfl

/-! ## Claims on the aggregation -/

/-- C1 (evaluation at the failing input): the list made of a record of another
district with week "01" followed by one target record with week "02" has one
run of target records, yet the aggregation emits two Periods, the first one
all-empty. -/
theorem C1_extra_period_at_failing_input :
    (weekRuns (filterDistrict [otherWeek01, targetWeek02] targetDistrict)).length = 1 ∧
      aggregate [otherWeek01, targetWeek02] = .ok
        [{ Number := "", Types := "", Date_begin := Time.zero, Date_end := Time.zero,
           Information := "" },
         { Number := "02", Types := "C", Date_begin := { year := 2014, month := 1, day := 13 },
           Date_end := { year := 2014, month := 1, day := 13 }, Information := "Holiday" }] := by
  decide

/-- C2 (evaluation at the failing input): two non-empty record lists with the
same sub-sequence of target records, whose dates parse, are aggregated into
different Period sequences: a leading record of another district with another
week number adds an all-empty Period. -/
theorem C2_other_district_record_changes_result :
    filterDistrict [targetWeek02] targetDistrict
        = filterDistrict [otherWeek01, targetWeek02] targetDistrict ∧
      aggregate [targetWeek02] = .ok
        [{ Number := "02", Types := "C", Date_begin := { year := 2014, month := 1, day := 13 },
           Date_end := { year := 2014, month := 1, day := 13 }, Information := "Holiday" }] ∧
      aggregate [otherWeek01, targetWeek02] = .ok
        [{ Number := "", Types := "", Date_begin := Time.zero, Date_end := Time.zero,
           Information := "" },
         { Number := "02", Types := "C", Date_begin := { year := 2014, month := 1, day := 13 },
           Date_end := { year := 2014, month := 1, day := 13 }, Information := "Holiday" }] ∧
      aggregate [targetWeek02] ≠ aggregate [otherWeek01, targetWeek02] := by
  decide

/-- C3: for a non-empty record list whose target records have parsable dates,
the emitted Periods are at most one leading Period followed by one Period per
maximal run of equal week number of the target records, in run order; the
Period of a run has the week number of the records of the run as Number, the
concatenation of their types as Types and the concatenation of their
information notes as Information. -/
theorem C3_period_of_each_run (records : List CollecteMatieresResiduelle)
    (hne : records ≠ [])
    (hparse : ∀ r ∈ records, r.District = targetDistrict → datesParse r = true) :
    ∃ lead runPeriods, aggregate records = .ok (lead ++ runPeriods) ∧ lead.length ≤ 1 ∧
      List.Forall₂
        (fun run p =>
          (∀ r ∈ run, p.Number = r.Week_number) ∧
          p.Types = String.join (run.map fun r => r.Type_) ∧
          p.Information = String.join (run.map fun r => r.Information))
        (weekRuns (filterDistrict records targetDistrict)) runPeriods := by
  cases records with
  | nil => exact absurd rfl hne
  | cons first rest =>
    refine ⟨_, _, aggregate_eq first rest hparse, leadingPeriods_length _ _, ?_⟩
    rw [List.forall₂_map_right_iff, List.forall₂_same]
    intro run hrun
    obtain ⟨last, hlast, hweek⟩ := weekRuns_run hrun
    refine ⟨fun r hr => ?_, ?_, ?_⟩
    · simp only [periodOfRun, hlast]
      exact (hweek r hr).symm
    · simp only [periodOfRun, hlast]
    · simp only [periodOfRun, hlast]

/-- C3 at a concrete list: a record of another district, two target records of
week "01", one of week "02". -/
theorem C3_period_of_each_run_witness :
    [otherWeek01, targetWeek01D, targetWeek01R, targetWeek02] ≠ [] ∧
    (∀ r ∈ [otherWeek01, targetWeek01D, targetWeek01R, targetWeek02],
      r.District = targetDistrict → datesParse r = true) ∧
    ∃ lead runPeriods,
      aggregate [otherWeek01, targetWeek01D, targetWeek01R, targetWeek02]
        = .ok (lead ++ runPeriods) ∧ lead.length ≤ 1 ∧
      List.Forall₂
        (fun run p =>
          (∀ r ∈ run, p.Number = r.Week_number) ∧
          p.Types = String.join (run.map fun r => r.Type_) ∧
          p.Information = String.join (run.map fun r => r.Information))
        (weekRuns (filterDistrict [otherWeek01, targetWeek01D, targetWeek01R, targetWeek02]
          targetDistrict)) runPeriods :=
  ⟨by decide, by decide,
    C3_period_of_each_run [otherWeek01, targetWeek01D, targetWeek01R, targetWeek02]
      (by decide) (by decide)⟩

/-- C4: for a non-empty record list whose target records have parsable dates,
the Period emitted for a maximal run of equal week number carries the parsed
begin and end dates of the last record of that run. -/
theorem C4_dates_of_last_record (records : List CollecteMatieresResiduelle)
    (hne : records ≠ [])
    (hparse : ∀ r ∈ records, r.District = targetDistrict → datesParse r = true) :
    ∃ lead runPeriods, aggregate records = .ok (lead ++ runPeriods) ∧ lead.length ≤ 1 ∧
      List.Forall₂
        (fun run p =>
          ∃ last, run.getLast? = some last ∧
            time_Parse last.Date_begin = .ok p.Date_begin ∧
            time_Parse last.Date_end = .ok p.Date_end)
        (weekRuns (filterDistrict records targetDistrict)) runPeriods := by
  cases records with
  | nil => exact absurd rfl hne
  | cons first rest =>
    refine ⟨_, _, aggregate_eq first rest hparse, leadingPeriods_length _ _, ?_⟩
    rw [List.forall₂_map_right_iff, List.forall₂_same]
    intro run hrun
    obtain ⟨last, hlast, _⟩ := weekRuns_run hrun
    have hmem : last ∈ filterDistrict (first :: rest) targetDistrict := by
      rw [← weekRuns_flatten (filterDistrict (first :: rest) targetDistrict)]
      exact List.mem_flatten.mpr ⟨run, hrun, List.mem_of_getLast?_eq_some hlast⟩
    have hf := List.mem_filter.mp hmem
    have hd : last.District = targetDistrict := by simpa using hf.2
    refine ⟨last, hlast, ?_⟩
    simp only [periodOfRun, hlast]
    exact time_Parse_of_datesParse (hparse last hf.1 hd)

/-- C4 at a concrete list whose week "01" run has two records with different
dates. -/
theorem C4_dates_of_last_record_witness :
    [targetWeek01D, targetWeek01R, targetWeek02] ≠ [] ∧
    (∀ r ∈ [targetWeek01D, targetWeek01R, targetWeek02],
      r.District = targetDistrict → datesParse r = true) ∧
    ∃ lead runPeriods,
      aggregate [targetWeek01D, targetWeek01R, targetWeek02] = .ok (lead ++ runPeriods) ∧
      lead.length ≤ 1 ∧
      List.Forall₂
        (fun run p =>
          ∃ last, run.getLast? = some last ∧
            time_Parse last.Date_begin = .ok p.Date_begin ∧
            time_Parse last.Date_end = .ok p.Date_end)
        (weekRuns (filterDistrict [targetWeek01D, targetWeek01R, targetWeek02] targetDistrict))
        runPeriods :=
  ⟨by decide, by decide,
    C4_dates_of_last_record [targetWeek01D, targetWeek01R, targetWeek02]
      (by decide) (by decide)⟩

/-- C5: a list of target records with parsable dates whose week numbers form a
run of `a`, then a run of `b`, then a run of `a` again, with `a ≠ b`, is
aggregated into exactly three Periods, labelled `a`, `b`, `a` in that order. -/
theorem C5_runs_are_not_merged (xs ys zs : List CollecteMatieresResiduelle) (a b : String)
    (hab : a ≠ b) (hx : xs ≠ []) (hy : ys ≠ []) (hz : zs ≠ [])
    (hxs : ∀ r ∈ xs, r.District = targetDistrict ∧ r.Week_number = a ∧ datesParse r = true)
    (hys : ∀ r ∈ ys, r.District = targetDistrict ∧ r.Week_number = b ∧ datesParse r = true)
    (hzs : ∀ r ∈ zs, r.District = targetDistrict ∧ r.Week_number = a ∧ datesParse r = true) :
    ∃ p1 p2 p3, aggregate (xs ++ ys ++ zs) = .ok [p1, p2, p3] ∧
      p1.Number = a ∧ p2.Number = b ∧ p3.Number = a := by
  cases xs with
  | nil => exact absurd rfl hx
  | cons x xs =>
    have hxa : x.Week_number = a := (hxs x (List.mem_cons_self _ _)).2.1
    obtain ⟨st1, h1, hp1, hn1, hP1⟩ := loop_run a (x :: xs)
      { previous_cmr := x, period := Period.zero, Periods := [] } hx hxs
    obtain ⟨st2, h2, hp2, hn2, hP2⟩ := loop_run b ys st1 hy hys
    obtain ⟨st3, h3, _, hn3, hP3⟩ := loop_run a zs st2 hz hzs
    have hloop : loop { previous_cmr := x, period := Period.zero, Periods := [] }
        (x :: (xs ++ ys ++ zs)) = .ok st3 := by
      have : x :: (xs ++ ys ++ zs) = (x :: xs) ++ ys ++ zs := by simp
      rw [this, loop_append, loop_append, h1]
      simp only [h2, h3]
    refine ⟨st1.period, st2.period, st3.period, ?_, hn1, hn2, hn3⟩
    have hagg := aggregate_of_loop hloop
    rw [hP3, hP2, hP1, hp2, hp1] at hagg
    simpa [hxa, hab, Ne.symm hab] using hagg

/-- C5 at a concrete list: weeks "12", "12", "13", "12". -/
theorem C5_runs_are_not_merged_witness :
    ("12" : String) ≠ "13" ∧
    ∃ p1 p2 p3,
      aggregate
        ([record targetDistrict "12" "D" "2014-03-17" "2014-03-17" "",
          record targetDistrict "12" "R" "2014-03-18" "2014-03-18" ""]
          ++ [record targetDistrict "13" "C" "2014-03-24" "2014-03-24" ""]
          ++ [record targetDistrict "12" "D" "2014-03-31" "2014-03-31" ""])
        = .ok [p1, p2, p3] ∧ p1.Number = "12" ∧ p2.Number = "13" ∧ p3.Number = "12" :=
  ⟨by decide,
    C5_runs_are_not_merged
      [record targetDistrict "12" "D" "2014-03-17" "2014-03-17" "",
        record targetDistrict "12" "R" "2014-03-18" "2014-03-18" ""]
      [record targetDistrict "13" "C" "2014-03-24" "2014-03-24" ""]
      [record targetDistrict "12" "D" "2014-03-31" "2014-03-31" ""]
      "12" "13" (by decide) (by decide) (by decide) (by decide) (by decide) (by decide)
      (by decide)⟩

/-- C6: on a non-empty record list the aggregation ends in `log.Fatal` if and
only if some target record has a begin date or an end date that
`time.Parse("2006-01-02", _)` rejects, and it returns a Period sequence if and
only if both dates of every target record parse; the dates of the records of
other districts play no part. -/
theorem C6_fatal_iff_bad_target_date (records : List CollecteMatieresResiduelle)
    (hne : records ≠ []) :
    ((∃ msg, aggregate records = .error (.fatal msg)) ↔
      ∃ r ∈ records, r.District = targetDistrict ∧
        ((time_Parse r.Date_begin).toBool = false ∨ (time_Parse r.Date_end).toBool = false)) ∧
    ((∃ periods, aggregate records = .ok periods) ↔
      ∀ r ∈ records, r.District = targetDistrict →
        ((time_Parse r.Date_begin).toBool = true ∧ (time_Parse r.Date_end).toBool = true)) := by
  cases records with
  | nil => exact absurd rfl hne
  | cons first rest =>
    by_cases hall : ∀ r ∈ first :: rest, r.District = targetDistrict → datesParse r = true
    · have hok := aggregate_eq first rest hall
      refine ⟨⟨?_, ?_⟩, ⟨fun _ r hr hd => (datesParse_eq_true_iff r).mp (hall r hr hd),
        fun _ => ⟨_, hok⟩⟩⟩
      · rintro ⟨msg, hmsg⟩
        rw [hok] at hmsg
        cases hmsg
      · rintro ⟨r, hr, hd, hbad⟩
        have := hall r hr hd
        rw [(datesParse_eq_false_iff r).mpr hbad] at this
        cases this
    · have hbad : ∃ r ∈ first :: rest, r.District = targetDistrict ∧ datesParse r = false := by
        by_contra hcon
        apply hall
        intro r hr hd
        cases hp : datesParse r with
        | true => rfl
        | false => exact absurd ⟨r, hr, hd, hp⟩ hcon
      obtain ⟨msg, hmsg⟩ := aggregate_fatal (first :: rest) hbad
      obtain ⟨r, hr, hd, hp⟩ := hbad
      refine ⟨⟨fun _ => ⟨r, hr, hd, (datesParse_eq_false_iff r).mp hp⟩, fun _ => ⟨msg, hmsg⟩⟩,
        ⟨?_, ?_⟩⟩
      · rintro ⟨periods, hps⟩
        rw [hmsg] at hps
        cases hps
      · intro h
        exact absurd (fun r hr hd => (datesParse_eq_true_iff r).mpr (h r hr hd)) hall

/-- C6 at a concrete list: a record of another district whose dates do not
parse, a good target record, and a target record dated 2014-02-30. -/
theorem C6_fatal_iff_bad_target_date_witness :
    [otherBadDate, targetWeek01D, targetBadDate] ≠ [] ∧
    (((∃ msg, aggregate [otherBadDate, targetWeek01D, targetBadDate] = .error (.fatal msg)) ↔
      ∃ r ∈ [otherBadDate, targetWeek01D, targetBadDate], r.District = targetDistrict ∧
        ((time_Parse r.Date_begin).toBool = false ∨ (time_Parse r.Date_end).toBool = false)) ∧
    ((∃ periods, aggregate [otherBadDate, targetWeek01D, targetBadDate] = .ok periods) ↔
      ∀ r ∈ [otherBadDate, targetWeek01D, targetBadDate], r.District = targetDistrict →
        ((time_Parse r.Date_begin).toBool = true ∧ (time_Parse r.Date_end).toBool = true))) :=
  ⟨by decide, C6_fatal_iff_bad_target_date [otherBadDate, targetWeek01D, targetBadDate]
    (by decide)⟩

/-- C7: a non-empty record list without any target record is aggregated into
exactly one Period, whose week number, Types and Information are empty and
whose dates are the zero date. -/
theorem C7_no_target_record (records : List CollecteMatieresResiduelle)
    (hne : records ≠ []) (hnone : ∀ r ∈ records, r.District ≠ targetDistrict) :
    aggregate records = .ok
      [{ Number := "", Types := "", Date_begin := Time.zero, Date_end := Time.zero,
         Information := "" }] := by
  cases records with
  | nil => exact absurd rfl hne
  | cons first rest =>
    have hf : filterDistrict (first :: rest) targetDistrict = [] := by
      unfold filterDistrict
      rw [List.filter_eq_nil_iff]
      intro r hr
      simpa using hnone r hr
    rw [aggregate_eq first rest (fun r hr hd => absurd hd (hnone r hr)), hf]
    rfl

/-- C7 at a concrete list of two records of another district, one of them with
dates that do not parse. -/
theorem C7_no_target_record_witness :
    [otherWeek01, otherBadDate] ≠ [] ∧
    (∀ r ∈ [otherWeek01, otherBadDate], r.District ≠ targetDistrict) ∧
    aggregate [otherWeek01, otherBadDate] = .ok
      [{ Number := "", Types := "", Date_begin := Time.zero, Date_end := Time.zero,
         Information := "" }] :=
  ⟨by decide, by decide,
    C7_no_target_record [otherWeek01, otherBadDate] (by decide) (by decide)⟩

/-- C8 (evaluation at the failing input): on the empty record list the index
expression of source line 119 panics; no Period is emitted. -/
theorem C8_empty_list_panics : aggregate [] = .error Failure.indexOutOfRange := by
  rfl

/-! ## Claims on the formatter -/

/-- C9: the lines printed for a Period sequence are, Period after Period, the
block of each Period and then the legend, where the block of the `i`-th Period
starts with a month-header line (two newlines, long month name, 4-digit year)
if and only if `i = 0` or the month label of that Period differs from the month
label of the Period before it; the number of header lines is the number of
maximal runs of equal month label. -/
theorem C9_month_headers (periods : List Period) :
    format periods
        = ((List.range periods.length).map (blockOfPeriod periods)).flatten
          ++ [CalendarLine.legend legendText] ∧
      ((format periods).filter CalendarLine.isHeader).length
        = (List.splitBy (fun x y => x == y) (periods.map monthLabel)).length := by
  refine ⟨?_, format_header_count periods⟩
  unfold format
  rw [(foldl_formatBody periods).2]

/-- C10: the summary lines printed for a Period sequence are exactly one per
Period, in Period order, and the summary line of a Period is its Number, a tab,
its Types, a tab, the begin date as `MM-DD`, a tab, the end date as `MM-DD`;
month and day are printed as two decimal digits, the first one `0` below ten. -/
theorem C10_summary_lines (periods : List Period) :
    (format periods).filter CalendarLine.isSummary
        = periods.map (fun p => CalendarLine.summary
            (p.Number ++ "\t" ++ p.Types ++ "\t" ++ p.Date_begin.Format_01_02 ++ "\t"
              ++ p.Date_end.Format_01_02)) ∧
      ∀ t : Time, t.month < 100 → t.day < 100 →
        t.Format_01_02 = String.mk [Nat.digitChar (t.month / 10), Nat.digitChar (t.month % 10),
          '-', Nat.digitChar (t.day / 10), Nat.digitChar (t.day % 10)] := by
  constructor
  · unfold format
    rw [List.filter_append, foldl_formatBody_summary]
    simp [CalendarLine.isSummary, summaryText]
  · intro t hm hd
    unfold Time.Format_01_02
    rw [appendInt_two_digits _ hm, appendInt_two_digits _ hd]
    rfl

/-! ## The formatter loop, block by block -/

/-- The lines added by the loop are one block per Period: an optional month
header, then the summary line and the optional information line. -/
theorem foldl_formatBody_blocks (l : List Period) :
    ∀ (st : FormatState), ∃ blocks : List (List CalendarLine),
      (l.foldl formatBody st).out = st.out ++ blocks.flatten ∧
      List.Forall₂
        (fun p block => ∃ head : List CalendarLine,
          (head = [] ∨ head = [CalendarLine.header ("\n\n" ++ monthLabel p)]) ∧
          block = head ++ summaryAndInformation p)
        l blocks := by
  induction l with
  | nil => intro st; exact ⟨[], by simp, List.Forall₂.nil⟩
  | cons p l ih =>
    intro st
    obtain ⟨blocks, hout, hall⟩ := ih (formatBody st p)
    rw [List.foldl_cons, hout, formatBody_eq]
    refine ⟨((if monthLabel p ≠ st.previous_time
        then [CalendarLine.header ("\n\n" ++ monthLabel p)] else [])
        ++ summaryAndInformation p) :: blocks, ?_, List.Forall₂.cons ⟨_, ?_, rfl⟩ hall⟩
    · simp [summaryAndInformation, List.append_assoc]
    · by_cases h : monthLabel p = st.previous_time <;> simp [h]

theorem foldl_formatBody_information (l : List Period) :
    ∀ (st : FormatState),
      (l.foldl formatBody st).out.filter CalendarLine.isInformation
        = st.out.filter CalendarLine.isInformation
          ++ (l.filter fun p => p.Information != "").map
              fun p => CalendarLine.information (" `-> " ++ p.Information) := by
  induction l with
  | nil => intro st; simp
  | cons p l ih =>
    intro st
    rw [List.foldl_cons, ih, formatBody_eq]
    by_cases h1 : monthLabel p = st.previous_time <;>
      by_cases h2 : p.Information = "" <;> simp [h1, h2, CalendarLine.isInformation]

theorem foldl_formatBody_legend (l : List Period) :
    ∀ (st : FormatState),
      (l.foldl formatBody st).out.filter CalendarLine.isLegend
        = st.out.filter CalendarLine.isLegend := by
  induction l with
  | nil => intro st; rfl
  | cons p l ih =>
    intro st
    rw [List.foldl_cons, ih, formatBody_eq]
    by_cases h1 : monthLabel p = st.previous_time <;>
      by_cases h2 : p.Information = "" <;> simp [h1, h2, CalendarLine.isLegend]

/-- The number of lines added by the loop: one per Period, one per non-empty
Information, one per header. -/
theorem foldl_formatBody_length (l : List Period) :
    ∀ (st : FormatState),
      (l.foldl formatBody st).out.length + (st.out.filter CalendarLine.isHeader).length
        = st.out.length + l.length + (l.filter fun p => p.Information != "").length
          + ((l.foldl formatBody st).out.filter CalendarLine.isHeader).length := by
  induction l with
  | nil => intro st; simp
  | cons p l ih =>
    intro st
    have h := ih (formatBody st p)
    rw [List.foldl_cons]
    have hlen : (formatBody st p).out.length + (st.out.filter CalendarLine.isHeader).length
        + (if p.Information != "" then 0 else 1)
        = st.out.length + 2 + ((formatBody st p).out.filter CalendarLine.isHeader).length := by
      rw [formatBody_eq]
      by_cases h1 : monthLabel p = st.previous_time <;>
        by_cases h2 : p.Information = "" <;> simp [h1, h2, CalendarLine.isHeader] <;> omega
    by_cases h2 : p.Information = ""
    · simp only [h2, bne_self_eq_false, Bool.false_eq_true, if_false] at hlen
      simp only [List.length_cons, List.filter_cons, h2, bne_self_eq_false,
        Bool.false_eq_true, if_false]
      omega
    · have hb : (p.Information != "") = true := by simpa using h2
      simp only [hb, if_true] at hlen
      simp only [List.length_cons, List.filter_cons, hb, if_true]
      omega

/-! ## Concatenation of strings -/

theorem join_append (a b : List String) :
    String.join (a ++ b) = String.join a ++ String.join b := by
  apply String.ext
  simp [String.data_join, String.data_append]

theorem join_map_join {α : Type} (f : α → String) (ls : List (List α)) :
    String.join (ls.map fun l => String.join (l.map f)) = String.join (ls.flatten.map f) := by
  induction ls with
  | nil => rfl
  | cons l ls ih =>
    rw [List.map_cons, List.flatten_cons, List.map_append, join_append, ← ih]
    apply String.ext
    simp [String.data_join, String.data_append]

theorem periodOfRun_Types (run : List CollecteMatieresResiduelle) :
    (periodOfRun run).Types = String.join (run.map fun r => r.Type_) := by
  unfold periodOfRun
  cases h : run.getLast? with
  | none => simp [List.getLast?_eq_none_iff.mp h, Period.zero, String.join]
  | some last => rfl

theorem periodOfRun_Information (run : List CollecteMatieresResiduelle) :
    (periodOfRun run).Information = String.join (run.map fun r => r.Information) := by
  unfold periodOfRun
  cases h : run.getLast? with
  | none => simp [List.getLast?_eq_none_iff.mp h, Period.zero, String.join]
  | some last => rfl

theorem leadingPeriods_Types (first : CollecteMatieresResiduelle)
    (filtered : List CollecteMatieresResiduelle) :
    String.join ((leadingPeriods first filtered).map fun p => p.Types) = "" ∧
      String.join ((leadingPeriods first filtered).map fun p => p.Information) = "" := by
  unfold leadingPeriods
  split
  · exact ⟨rfl, rfl⟩
  · split
    · exact ⟨rfl, rfl⟩
    · exact ⟨rfl, rfl⟩

theorem weekRuns_cons_ne_nil (a : CollecteMatieresResiduelle)
    (f : List CollecteMatieresResiduelle) : weekRuns (a :: f) ≠ [] := by
  intro h
  have := weekRuns_flatten (a :: f)
  rw [h] at this
  cases this

/-! ## Claims on the information lines, the scenarios and the legend -/

/-- C11: the lines printed for a Period sequence are one block per Period, in
order, followed by the legend; the block of a Period is an optional month
header, its summary line and, immediately after the summary line, the line
made of the arrow marker and the Information if and only if the Information is
not empty. The information lines of the output are those of the Periods with a
non-empty Information, in order. -/
theorem C11_information_line (periods : List Period) :
    (∃ blocks : List (List CalendarLine),
      format periods = blocks.flatten ++ [CalendarLine.legend legendText] ∧
      List.Forall₂
        (fun p block => ∃ head : List CalendarLine,
          (head = [] ∨ head = [CalendarLine.header ("\n\n" ++ monthLabel p)]) ∧
          block = head ++ [CalendarLine.summary (summaryText p)]
            ++ (if p.Information ≠ ""
                then [CalendarLine.information (" `-> " ++ p.Information)] else []))
        periods blocks) ∧
      (format periods).filter CalendarLine.isInformation
        = (periods.filter fun p => p.Information != "").map
            fun p => CalendarLine.information (" `-> " ++ p.Information) := by
  constructor
  · obtain ⟨blocks, hout, hall⟩ :=
      foldl_formatBody_blocks periods { previous_time := "", out := [] }
    refine ⟨blocks, ?_, ?_⟩
    · simp only [format, hout, List.nil_append]
    · refine hall.imp ?_
      rintro p block ⟨head, hhead, hblock⟩
      exact ⟨head, hhead, by rw [hblock, summaryAndInformation, List.append_assoc]⟩
  · unfold format
    rw [List.filter_append, foldl_formatBody_information]
    simp [CalendarLine.isInformation]

/-- C12: the scenario of three target records (week "01" type "D", week "01"
type "R", week "02" type "C" with the note "Holiday") is aggregated into
exactly two Periods, and the lines printed are one "January 2014" header, the
two summary lines, the information line of the second Period and the legend. -/
theorem C12_scenario :
    aggregate
        [record targetDistrict "01" "D" "2014-01-06" "2014-01-06" "",
         record targetDistrict "01" "R" "2014-01-06" "2014-01-06" "",
         record targetDistrict "02" "C" "2014-01-13" "2014-01-13" "Holiday"]
      = .ok
        [{ Number := "01", Types := "DR", Date_begin := { year := 2014, month := 1, day := 6 },
           Date_end := { year := 2014, month := 1, day := 6 }, Information := "" },
         { Number := "02", Types := "C", Date_begin := { year := 2014, month := 1, day := 13 },
           Date_end := { year := 2014, month := 1, day := 13 }, Information := "Holiday" }] ∧
    format
        [{ Number := "01", Types := "DR", Date_begin := { year := 2014, month := 1, day := 6 },
           Date_end := { year := 2014, month := 1, day := 6 }, Information := "" },
         { Number := "02", Types := "C", Date_begin := { year := 2014, month := 1, day := 13 },
           Date_end := { year := 2014, month := 1, day := 13 }, Information := "Holiday" }]
      = [CalendarLine.header "\n\nJanuary 2014",
         CalendarLine.summary "01\tDR\t01-06\t01-06",
         CalendarLine.summary "02\tC\t01-13\t01-13",
         CalendarLine.information " `-> Holiday",
         CalendarLine.legend legendText] ∧
    main "print_calendar" ["calendrier.json"] sampleReadFile sampleUnmarshal
      = { events :=
            [Event.readFile "calendrier.json",
             Event.println (CalendarLine.header "\n\nJanuary 2014"),
             Event.println (CalendarLine.summary "01\tDR\t01-06\t01-06"),
             Event.println (CalendarLine.summary "02\tC\t01-13\t01-13"),
             Event.println (CalendarLine.information " `-> Holiday"),
             Event.println (CalendarLine.legend legendText)]
          status := .ok () } := by
  decide

/-- C13: formatting the single all-empty Period with zero dates yields one
month header for "January 0001", the summary line made of two tabs, "01-01", a
tab and "01-01", no information line, and the legend. -/
theorem C13_degenerate_period :
    format
        [{ Number := "", Types := "", Date_begin := Time.zero, Date_end := Time.zero,
           Information := "" }]
      = [CalendarLine.header "\n\nJanuary 0001",
         CalendarLine.summary "\t\t01-01\t01-01",
         CalendarLine.legend legendText] := by
  decide

/-- C14: the lines printed for a Period sequence end with the legend, printed
exactly once after all the lines of the Periods; its text is the same for all
Period sequences: "Legende" and the seven entries D, R, C, S, E, B, F. -/
theorem C14_legend (periods : List Period) :
    (∃ body : List CalendarLine,
      format periods = body ++ [CalendarLine.legend legendText] ∧
      ∀ l ∈ body, l.isLegend = false) ∧
    ((format periods).filter CalendarLine.isLegend).length = 1 ∧
    legendText = "\nLegende\nD - Déchets\nR - Récupération\nC - Compost\nS - Sapin\nE - Encombrant et bois\nB - Carton\nF - Feuilles mortes" := by
  have hnone : (periods.foldl formatBody { previous_time := "", out := [] }).out.filter
      CalendarLine.isLegend = [] := by
    rw [foldl_formatBody_legend]
    rfl
  refine ⟨⟨_, rfl, ?_⟩, ?_, by decide⟩
  · intro l hl
    cases hleg : l.isLegend with
    | false => rfl
    | true =>
      have : l ∈ (periods.foldl formatBody { previous_time := "", out := [] }).out.filter
          CalendarLine.isLegend := List.mem_filter.mpr ⟨hl, hleg⟩
      rw [hnone] at this
      cases this
  · unfold format
    rw [List.filter_append, hnone]
    simp [CalendarLine.isLegend]

/-- C15: when the argument vector does not hold exactly the program name and
one path, `main` prints the usage message and ends in `log.Fatal`, and that is
all it does: no file is read and no calendar line is printed. With exactly one
path after the program name, no usage message is printed. -/
theorem C15_usage (program : String) (arguments : List String)
    (ReadFile : String → Except String String)
    (Unmarshal : String → Except String (List CollecteMatieresResiduelle)) :
    ((program :: arguments).length ≠ 2 →
      main program arguments ReadFile Unmarshal
        = { events := [Event.printf (usage program)]
            status := .error (.fatal "not enough arguments") }) ∧
    ((program :: arguments).length = 2 →
      ∀ e ∈ (main program arguments ReadFile Unmarshal).events, e.isPrintf = false) := by
  constructor
  · intro h
    simp only [main, h, ne_eq, not_false_eq_true, if_true]
  · intro h e he
    match arguments, h with
    | [file], _ =>
      simp only [main, List.length_cons, List.length_nil, ne_eq, not_true_eq_false,
        if_false] at he
      have hfile : (program :: [file])[1]? = some file := rfl
      simp only [hfile] at he
      cases hr : ReadFile file with
      | error err => simp [hr] at he; subst he; rfl
      | ok json_buffer =>
        simp only [hr] at he
        cases hu : Unmarshal json_buffer with
        | error err => simp [hu] at he; subst he; rfl
        | ok records =>
          simp only [hu] at he
          cases ha : aggregate records with
          | error err => simp [ha] at he; subst he; rfl
          | ok ps =>
            simp only [ha, List.mem_cons, List.mem_map] at he
            rcases he with rfl | ⟨l, _, rfl⟩ <;> rfl

/-- C15 at concrete argument vectors: no path, two paths, and one path. -/
theorem C15_usage_witness :
    main "/usr/local/bin/print_calendar" [] sampleReadFile sampleUnmarshal
        = { events := [Event.printf "Usage: print_calendar [OPTION] FILE.json\n\n"]
            status := .error (.fatal "not enough arguments") } ∧
    main "/usr/local/bin/print_calendar" ["calendrier.json", "extra.json"] sampleReadFile
        sampleUnmarshal
        = { events := [Event.printf "Usage: print_calendar [OPTION] FILE.json\n\n"]
            status := .error (.fatal "not enough arguments") } ∧
    ∀ e ∈ (main "/usr/local/bin/print_calendar" ["calendrier.json"] sampleReadFile
        sampleUnmarshal).events, e.isPrintf = false :=
  ⟨(C15_usage "/usr/local/bin/print_calendar" [] sampleReadFile sampleUnmarshal).1 (by decide),
    (C15_usage "/usr/local/bin/print_calendar" ["calendrier.json", "extra.json"] sampleReadFile
      sampleUnmarshal).1 (by decide),
    (C15_usage "/usr/local/bin/print_calendar" ["calendrier.json"] sampleReadFile
      sampleUnmarshal).2 (by decide)⟩

/-! ## Claims on the counts and on conservation -/

/-- C16: the lines printed before the legend are as many as the Periods, plus
the Periods with a non-empty Information, plus the maximal runs of equal month
label. -/
theorem C16_line_count (periods : List Period) :
    ∃ body : List CalendarLine,
      format periods = body ++ [CalendarLine.legend legendText] ∧
      body.length
        = periods.length + (periods.filter fun p => p.Information != "").length
          + (List.splitBy (fun x y => x == y) (periods.map monthLabel)).length := by
  refine ⟨_, rfl, ?_⟩
  have hlen := foldl_formatBody_length periods { previous_time := "", out := [] }
  have hcount := format_header_count periods
  simp only [format, List.filter_append, List.length_append] at hcount
  have hleg : ([CalendarLine.legend legendText].filter CalendarLine.isHeader).length = 0 := by
    simp [CalendarLine.isHeader]
  simp only [List.filter_nil, List.length_nil] at hlen
  omega

/-- C17: for a non-empty record list `first :: rest` whose target records have
parsable dates, with `r` the number of maximal runs of equal week number of the
target records, the aggregation emits `r + 1` Periods when there is no target
record or when the week number of `first` differs from that of the first target
record, and `r` Periods otherwise; in the `r + 1` case with a target record,
the first Period emitted is all-empty with zero dates. -/
theorem C17_period_count (first : CollecteMatieresResiduelle)
    (rest : List CollecteMatieresResiduelle)
    (hparse : ∀ r ∈ first :: rest, r.District = targetDistrict → datesParse r = true) :
    ∃ periods, aggregate (first :: rest) = .ok periods ∧
      ((filterDistrict (first :: rest) targetDistrict = [] ∨
          ∃ a, (filterDistrict (first :: rest) targetDistrict).head? = some a ∧
            first.Week_number ≠ a.Week_number) →
        periods.length
          = (weekRuns (filterDistrict (first :: rest) targetDistrict)).length + 1) ∧
      ((∃ a, (filterDistrict (first :: rest) targetDistrict).head? = some a ∧
          first.Week_number = a.Week_number) →
        periods.length = (weekRuns (filterDistrict (first :: rest) targetDistrict)).length) ∧
      ((∃ a, (filterDistrict (first :: rest) targetDistrict).head? = some a ∧
          first.Week_number ≠ a.Week_number) →
        periods.head? = some
          { Number := "", Types := "", Date_begin := Time.zero, Date_end := Time.zero,
            Information := "" }) := by
  refine ⟨_, aggregate_eq first rest hparse, ?_, ?_, ?_⟩
  · rintro (hnil | ⟨a, ha, hw⟩)
    · simp [hnil, leadingPeriods, weekRuns]
    · cases hf : filterDistrict (first :: rest) targetDistrict with
      | nil => rw [hf] at ha; cases ha
      | cons b f =>
        rw [hf] at ha
        have hab : b = a := by simpa using ha
        subst hab
        have hw2 : b.Week_number ≠ first.Week_number := fun h => hw h.symm
        simp [leadingPeriods, hw2]
  · rintro ⟨a, ha, hw⟩
    cases hf : filterDistrict (first :: rest) targetDistrict with
    | nil => rw [hf] at ha; cases ha
    | cons b f =>
      rw [hf] at ha
      have hab : b = a := by simpa using ha
      subst hab
      simp [leadingPeriods, hw]
  · rintro ⟨a, ha, hw⟩
    cases hf : filterDistrict (first :: rest) targetDistrict with
    | nil => rw [hf] at ha; cases ha
    | cons b f =>
      rw [hf] at ha
      have hab : b = a := by simpa using ha
      subst hab
      have hw2 : b.Week_number ≠ first.Week_number := fun h => hw h.symm
      simp [leadingPeriods, hw2, Period.zero]

/-- C17 at a concrete list: a record of another district with week "01", then
target records of weeks "02", "01", "01": two runs, three Periods, the first
one all-empty. -/
theorem C17_period_count_witness :
    (∀ r ∈ otherWeek01 :: [targetWeek02, targetWeek01D, targetWeek01R],
      r.District = targetDistrict → datesParse r = true) ∧
    ∃ periods,
      aggregate (otherWeek01 :: [targetWeek02, targetWeek01D, targetWeek01R]) = .ok periods ∧
      ((filterDistrict (otherWeek01 :: [targetWeek02, targetWeek01D, targetWeek01R])
            targetDistrict = [] ∨
          ∃ a, (filterDistrict (otherWeek01 :: [targetWeek02, targetWeek01D, targetWeek01R])
              targetDistrict).head? = some a ∧
            otherWeek01.Week_number ≠ a.Week_number) →
        periods.length
          = (weekRuns (filterDistrict
              (otherWeek01 :: [targetWeek02, targetWeek01D, targetWeek01R])
              targetDistrict)).length + 1) ∧
      ((∃ a, (filterDistrict (otherWeek01 :: [targetWeek02, targetWeek01D, targetWeek01R])
            targetDistrict).head? = some a ∧
          otherWeek01.Week_number = a.Week_number) →
        periods.length
          = (weekRuns (filterDistrict
              (otherWeek01 :: [targetWeek02, targetWeek01D, targetWeek01R])
              targetDistrict)).length) ∧
      ((∃ a, (filterDistrict (otherWeek01 :: [targetWeek02, targetWeek01D, targetWeek01R])
            targetDistrict).head? = some a ∧
          otherWeek01.Week_number ≠ a.Week_number) →
        periods.head? = some
          { Number := "", Types := "", Date_begin := Time.zero, Date_end := Time.zero,
            Information := "" }) :=
  ⟨by decide,
    C17_period_count otherWeek01 [targetWeek02, targetWeek01D, targetWeek01R] (by decide)⟩

/-- C18: for a non-empty record list `first :: rest` whose target records have
parsable dates, the concatenation of the Types of the emitted Periods, in
order, is the concatenation of the types of the target records in input order,
and the concatenation of their Information is the concatenation of the
information notes of the target records. -/
theorem C18_conservation (first : CollecteMatieresResiduelle)
    (rest : List CollecteMatieresResiduelle)
    (hparse : ∀ r ∈ first :: rest, r.District = targetDistrict → datesParse r = true) :
    ∃ periods, aggregate (first :: rest) = .ok periods ∧
      String.join (periods.map fun p => p.Types)
        = String.join ((filterDistrict (first :: rest) targetDistrict).map fun r => r.Type_) ∧
      String.join (periods.map fun p => p.Information)
        = String.join
            ((filterDistrict (first :: rest) targetDistrict).map fun r => r.Information) := by
  refine ⟨_, aggregate_eq first rest hparse, ?_, ?_⟩
  · rw [List.map_append, join_append, (leadingPeriods_Types _ _).1, List.map_map]
    have : (fun p => p.Types) ∘ periodOfRun
        = fun run => String.join (run.map fun r => r.Type_) := by
      funext run
      exact periodOfRun_Types run
    rw [this, join_map_join, weekRuns_flatten]
    apply String.ext
    simp [String.data_append]
  · rw [List.map_append, join_append, (leadingPeriods_Types _ _).2, List.map_map]
    have : (fun p => p.Information) ∘ periodOfRun
        = fun run => String.join (run.map fun r => r.Information) := by
      funext run
      exact periodOfRun_Information run
    rw [this, join_map_join, weekRuns_flatten]
    apply String.ext
    simp [String.data_append]

/-- C18 at a concrete list with a record of another district between target
records. -/
theorem C18_conservation_witness :
    (∀ r ∈ targetWeek01D :: [otherWeek01, targetWeek01R, targetWeek02],
      r.District = targetDistrict → datesParse r = true) ∧
    ∃ periods,
      aggregate (targetWeek01D :: [otherWeek01, targetWeek01R, targetWeek02]) = .ok periods ∧
      String.join (periods.map fun p => p.Types)
        = String.join ((filterDistrict (targetWeek01D :: [otherWeek01, targetWeek01R,
            targetWeek02]) targetDistrict).map fun r => r.Type_) ∧
      String.join (periods.map fun p => p.Information)
        = String.join ((filterDistrict (targetWeek01D :: [otherWeek01, targetWeek01R,
            targetWeek02]) targetDistrict).map fun r => r.Information) :=
  ⟨by decide,
    C18_conservation targetWeek01D [otherWeek01, targetWeek01R, targetWeek02] (by decide)⟩

end Sherbrooke
